import Mathlib

/-
Verification of the Fractal-Gallery escape-time engine.

The numeric core of the repository (src/mandelbrot.py, src/julia.py) is
embedded shallowly: Python floats are modelled as exact rationals, a
complex value is a pair (re, im) of rationals, NumPy grids are lists of
lists, and the integer iteration bound is a natural number (for a
non-positive bound Python's `range(max_iter)` is empty and the functions
return `max_iter`; the claims only exercise bounds >= 0, which `Nat`
covers exactly).
-/

namespace Fractal

/-- Squared magnitude re^2 + im^2 of a complex value (re, im). -/
def normSq (z : ℚ × ℚ) : ℚ := z.1 * z.1 + z.2 * z.2

/-- One update of the escape-time recurrence, `z = z * z + c` in
mandelbrot_point / julia_point, written out in components:
(a+bi)^2 + c = (a*a - b*b + c.re) + (a*b + b*a + c.im) i. -/
def stepZ (z c : ℚ × ℚ) : ℚ × ℚ :=
  (z.1 * z.1 - z.2 * z.2 + c.1, z.1 * z.2 + z.2 * z.1 + c.2)

/-- The escape test `abs(z) > 2.0` of the source, expressed by the
equivalent squared-magnitude comparison re^2 + im^2 > 4 (both sides of
`abs(z) > 2` are non-negative, so squaring is an equivalence). -/
def escaped (z : ℚ × ℚ) : Prop := 4 < normSq z

instance (z : ℚ × ℚ) : Decidable (escaped z) :=
  inferInstanceAs (Decidable (4 < normSq z))

/-- The escape-counting loop shared verbatim by mandelbrot_point
(src/mandelbrot.py lines 33-38) and julia_point (src/julia.py lines
35-39):
`for i in range(max_iter): if abs(z) > 2.0: return i; z = z*z + c`
followed by `return max_iter`. `escapeLoop c n z` is the value returned
when the current iterate is `z` and `n` loop iterations remain; indices
are counted relative to the current position, so the top-level call with
`n = max_iter` returns the Python function's result. -/
def escapeLoop (c : ℚ × ℚ) : ℕ → ℚ × ℚ → ℕ
  | 0, _ => 0
  | n + 1, z => if escaped z then 0 else escapeLoop c n (stepZ z c) + 1

/-- src/mandelbrot.py `mandelbrot_point(c, max_iter)`: the iterate starts
at z = 0.0 + 0.0j and c is the pixel's coordinate. -/
def mandelbrot_point (c : ℚ × ℚ) (max_iter : ℕ) : ℕ :=
  escapeLoop c max_iter (0, 0)

/-- src/julia.py `julia_point(z, c, max_iter)`: the iterate starts at the
pixel's coordinate z and c is the fixed Julia constant. -/
def julia_point (z c : ℚ × ℚ) (max_iter : ℕ) : ℕ :=
  escapeLoop c max_iter z

/-- src/mandelbrot.py `mandelbrot_set(width, height, x_min, x_max, y_min,
y_max, max_iter)`: `result[y, x] = mandelbrot_point(complex(x_min + x*dx,
y_min + y*dy), max_iter)` with `dx = (x_max - x_min)/width`,
`dy = (y_max - y_min)/height`, over y in range(height), x in
range(width).  The `np.zeros((height, width))` matrix filled by the two
loops is modelled as the list of its rows.  The function performs no
validation of width, height or max_iter. -/
def mandelbrot_set (width height : ℕ) (x_min x_max y_min y_max : ℚ)
    (max_iter : ℕ) : List (List ℕ) :=
  let dx := (x_max - x_min) / width
  let dy := (y_max - y_min) / height
  (List.range height).map fun (y : ℕ) =>
    (List.range width).map fun (x : ℕ) =>
      mandelbrot_point (x_min + (x : ℚ) * dx, y_min + (y : ℚ) * dy) max_iter

/-- src/julia.py `julia_set(width, height, x_min, x_max, y_min, y_max,
c_real, c_imag, max_iter)`: identical pixel sweep, but each pixel
coordinate is the starting value z and c = (c_real, c_imag) is fixed.
No validation of width, height or max_iter is performed. -/
def julia_set (width height : ℕ) (x_min x_max y_min y_max : ℚ)
    (c_real c_imag : ℚ) (max_iter : ℕ) : List (List ℕ) :=
  let dx := (x_max - x_min) / width
  let dy := (y_max - y_min) / height
  (List.range height).map fun (y : ℕ) =>
    (List.range width).map fun (x : ℕ) =>
      julia_point (x_min + (x : ℚ) * dx, y_min + (y : ℚ) * dy) (c_real, c_imag) max_iter

/-- src/mandelbrot.py `MandelbrotGenerator.calculate_bounds(x_center,
y_center, zoom, width, height)`: aspect = width / height,
base_extent = 4.0 / zoom, x_extent = base_extent * aspect / 2,
y_extent = base_extent / 2, returning
(x_center - x_extent, x_center + x_extent,
 y_center - y_extent, y_center + y_extent). -/
def MandelbrotGenerator.calculate_bounds (x_center y_center zoom : ℚ)
    (width height : ℕ) : ℚ × ℚ × ℚ × ℚ :=
  let aspect := (width : ℚ) / (height : ℚ)
  let base_extent := 4 / zoom
  let x_extent := base_extent * aspect / 2
  let y_extent := base_extent / 2
  (x_center - x_extent, x_center + x_extent, y_center - y_extent, y_center + y_extent)

/-- src/julia.py `JuliaGenerator.calculate_bounds`: textually identical
to the Mandelbrot version. -/
def JuliaGenerator.calculate_bounds (x_center y_center zoom : ℚ)
    (width height : ℕ) : ℚ × ℚ × ℚ × ℚ :=
  let aspect := (width : ℚ) / (height : ℚ)
  let base_extent := 4 / zoom
  let x_extent := base_extent * aspect / 2
  let y_extent := base_extent / 2
  (x_center - x_extent, x_center + x_extent, y_center - y_extent, y_center + y_extent)

/-- The orbit z_0 = z, z_{n+1} = z_n^2 + c: the value the loop inspects
at the start of iteration n (specification device for stating which
index the kernels report). -/
def orbit (z c : ℚ × ℚ) : ℕ → ℚ × ℚ
  | 0 => z
  | n + 1 => stepZ (orbit z c n) c

/-- src/julia.py `JuliaGenerator.famous_julia_sets`: the preset table,
in source order, with the float literals of the source read as exact
decimals. -/
def famous_julia_sets : List (String × (ℚ × ℚ)) :=
  [("classic", (-0.7, 0.27015)),
   ("dragon", (-0.8, 0.156)),
   ("spiral", (-0.7, -0.3)),
   ("lightning", (-0.54, 0.54)),
   ("dendrite", (-0.235, 0.85)),
   ("rabbit", (-0.123, 0.745)),
   ("airplane", (-0.75, 0.1)),
   ("galaxy", (0.285, 0.01)),
   ("flower", (-0.4, 0.6)),
   ("seahorse", (-0.75, 0.11))]

/-- Accumulating base-10 digit reader ('0'.toNat = 48). -/
def natOfDigitsAux (acc : ℕ) : List Char → ℕ
  | [] => acc
  | ch :: rest => natOfDigitsAux (acc * 10 + (ch.toNat - 48)) rest

/-- Split an optional leading sign off a numeric literal; true means
negative. -/
def splitSign : List Char → Bool × List Char
  | '-' :: rest => (true, rest)
  | '+' :: rest => (false, rest)
  | l => (false, l)

/-- Unsigned decimal literal in the forms accepted by Python float():
digits, digits.digits, digits., or .digits (exponents are not used by
the repository's inputs and are not modelled). -/
def decToRat (l : List Char) : Option ℚ :=
  match l.span Char.isDigit with
  | (intPart, []) =>
      if intPart.isEmpty then none else some (natOfDigitsAux 0 intPart : ℚ)
  | (intPart, dot :: fracPart) =>
      if dot = '.' ∧ (∀ ch ∈ fracPart, ch.isDigit = true) ∧
          (intPart ≠ [] ∨ fracPart ≠ []) then
        some ((natOfDigitsAux 0 intPart : ℚ) +
          (natOfDigitsAux 0 fracPart : ℚ) / 10 ^ fracPart.length)
      else none

/-- Signed decimal literal. -/
def signedFloat (l : List Char) : Option ℚ :=
  match splitSign l with
  | (neg, body) => (decToRat body).map fun q => if neg then -q else q

/-- Coefficient of the imaginary unit: a bare sign (or nothing) before
the trailing j means ±1, as in Python complex(). -/
def imagCoeff (l : List Char) : Option ℚ :=
  match splitSign l with
  | (neg, []) => some (if neg then (-1 : ℚ) else 1)
  | (neg, body) => (decToRat body).map fun q => if neg then -q else q

/-- Index of the last sign character appearing at position ≥ 1, the
separator between the real and imaginary components of a complex
literal. -/
def lastSignIdx (l : List Char) : Option ℕ :=
  (List.range l.length).foldl
    (fun acc i =>
      if 1 ≤ i ∧ (l.getD i ' ' = '+' ∨ l.getD i ' ' = '-') then some i else acc)
    none

/-- Python's builtin complex() on a cleaned string (no spaces, i already
replaced by j), restricted to the grammar the repository's inputs use:
`<float>`, `<float>j`, and `<float><sign><float>j` with plain decimal
floats; returns none exactly when the builtin raises ValueError on such
strings. -/
def complexFromChars (l : List Char) : Option (ℚ × ℚ) :=
  match l.getLast? with
  | some 'j' =>
      let body := l.dropLast
      match lastSignIdx body with
      | some i =>
          match signedFloat (body.take i), imagCoeff (body.drop i) with
          | some re, some im => some (re, im)
          | _, _ => none
      | none => (imagCoeff body).map fun q => ((0 : ℚ), q)
  | _ => (signedFloat l).map fun q => (q, (0 : ℚ))

/-- The three input shapes `JuliaGenerator.parse_julia_c` accepts:
an already-resolved complex value, a (real, imag) pair, or a string
(Python's separate tuple/list cases both mean a two-component pair). -/
inductive CInput where
  | cval (z : ℚ × ℚ)
  | pair (re im : ℚ)
  | str (s : String)

/-- Python str.lower restricted to characterwise lowering, which agrees
with it on the ASCII preset names used here. -/
def pyLower (s : String) : String := String.mk (s.data.map Char.toLower)

/-- src/julia.py `JuliaGenerator.parse_julia_c(c_input)`: a complex
value is returned unchanged; a two-component pair is combined; a string
is first looked up case-insensitively in famous_julia_sets, otherwise
`c_input.replace('i', 'j').replace(' ', '')` (single-character
replacements, modelled characterwise) is fed to complex(), and on
failure a ValueError carrying the transformed string and both accepted
formats is raised, modelled as `Except.error` of the message. -/
def parse_julia_c : CInput → Except String (ℚ × ℚ)
  | .cval z => .ok z
  | .pair re im => .ok (re, im)
  | .str s =>
      match famous_julia_sets.lookup (pyLower s) with
      | some z => .ok z
      | none =>
          let t := String.mk
            (((s.data.map fun ch => if ch = 'i' then 'j' else ch).filter
              fun ch => ch ≠ ' '))
          match complexFromChars t.data with
          | some z => .ok z
          | none =>
              .error ("Formato de c inv\xe1lido: " ++ t ++
                ". Use formatos como: \x270.3+0.5j\x27, \x27classic\x27, o tuple (0.3, 0.5)")

lemma orbit_zero (z c : ℚ × ℚ) : orbit z c 0 = z := rfl

lemma orbit_shift (z c : ℚ × ℚ) : ∀ n, orbit z c (n + 1) = orbit (stepZ z c) c n := by
  intro n
  induction n with
  | zero => rfl
  | succ k ih =>
      calc orbit z c (k + 1 + 1) = stepZ (orbit z c (k + 1)) c := rfl
        _ = stepZ (orbit (stepZ z c) c k) c := by rw [ih]
        _ = orbit (stepZ z c) c (k + 1) := rfl

lemma escapeLoop_le (c : ℚ × ℚ) : ∀ n z, escapeLoop c n z ≤ n := by
  intro n
  induction n with
  | zero => intro z; simp [escapeLoop]
  | succ k ih =>
      intro z
      simp only [escapeLoop]
      split
      · exact Nat.zero_le _
      · exact Nat.succ_le_succ (ih _)

/-- The loop's result is a minimal escape index: no strictly earlier
orbit value escapes, and if the result is below the bound then the orbit
value at the result does escape. -/
lemma escapeLoop_min (c : ℚ × ℚ) : ∀ n z,
    (∀ j < escapeLoop c n z, ¬ escaped (orbit z c j)) ∧
    (escapeLoop c n z < n → escaped (orbit z c (escapeLoop c n z))) := by
  intro n
  induction n with
  | zero =>
      intro z
      refine ⟨fun j hj => absurd hj (Nat.not_lt_zero _), fun h => absurd h (Nat.lt_irrefl _)⟩
  | succ k ih =>
      intro z
      by_cases hz : escaped z
      · refine ⟨fun j hj => ?_, fun _ => ?_⟩
        · simp [escapeLoop, hz] at hj
        · simp only [escapeLoop, if_pos hz, orbit_zero]
          exact hz
      · have hrec := ih (stepZ z c)
        have hval : escapeLoop c (k + 1) z = escapeLoop c k (stepZ z c) + 1 := by
          simp [escapeLoop, hz]
        refine ⟨fun j hj => ?_, fun hlt => ?_⟩
        · rw [hval] at hj
          match j, hj with
          | 0, _ => simpa [orbit_zero] using hz
          | j' + 1, hj' =>
              rw [orbit_shift]
              exact hrec.1 j' (Nat.lt_of_succ_lt_succ hj')
        · rw [hval] at hlt ⊢
          rw [orbit_shift]
          exact hrec.2 (Nat.lt_of_succ_lt_succ hlt)

/-- If a predicate holds at z, is preserved by the recurrence step, and
rules out escape, then the loop runs to completion and returns the full
remaining budget. -/
lemma escapeLoop_eq_of_inv (c : ℚ × ℚ) (P : ℚ × ℚ → Prop)
    (hs : ∀ z, P z → P (stepZ z c)) (he : ∀ z, P z → ¬ escaped z) :
    ∀ n z, P z → escapeLoop c n z = n := by
  intro n
  induction n with
  | zero => intro z _; rfl
  | succ k ih =>
      intro z hz
      simp only [escapeLoop, if_neg (he z hz)]
      exact congrArg (· + 1) (ih _ (hs z hz))

/-- C1: for every starting value z0, constant c and positive max_iter,
the escape-time kernel returns a value r ≤ max_iter such that no orbit
index below r escapes (|z_j| ≤ 2 for all j < r) and, whenever
r < max_iter, the orbit value z_r does escape (|z_r| > 2) — i.e. r is
the smallest escaping index in [0, max_iter), or max_iter when none
exists; orbit index 0 tests z0 itself.  The Mandelbrot variant is the
same loop started at z0 = 0 with c per pixel. -/
theorem claim_C1 (z c : ℚ × ℚ) (m : ℕ) (_hm : 0 < m) :
    (julia_point z c m ≤ m ∧
      (∀ j < julia_point z c m, ¬ escaped (orbit z c j)) ∧
      (julia_point z c m < m → escaped (orbit z c (julia_point z c m)))) ∧
    mandelbrot_point c m = julia_point (0, 0) c m := by
  refine ⟨⟨escapeLoop_le c m z, (escapeLoop_min c m z).1, (escapeLoop_min c m z).2⟩, rfl⟩

/-- Witness for C1 at z0 = (3, 0), c = (0, 0), max_iter = 2. -/
theorem claim_C1_witness :
    0 < 2 ∧
    ((julia_point (3, 0) (0, 0) 2 ≤ 2 ∧
        (∀ j < julia_point (3, 0) (0, 0) 2, ¬ escaped (orbit (3, 0) (0, 0) j)) ∧
        (julia_point (3, 0) (0, 0) 2 < 2 →
          escaped (orbit (3, 0) (0, 0) (julia_point (3, 0) (0, 0) 2)))) ∧
      mandelbrot_point (0, 0) 2 = julia_point (0, 0) (0, 0) 2) :=
  ⟨by decide, claim_C1 (3, 0) (0, 0) 2 (by decide)⟩

/-- C2 counterexample: at max_iter = 0 with positive dimensions, both
grid generators return a fully built height×width grid (every pixel's
kernel call runs and returns max_iter = 0) instead of failing with an
InvalidIterationBound error — no validation of max_iter exists in the
code. -/
theorem claim_C2_counterexample :
    mandelbrot_set 2 2 (-2) 2 (-2) 2 0 = [[0, 0], [0, 0]] ∧
    julia_set 2 2 (-2) 2 (-2) 2 0 0 0 = [[0, 0], [0, 0]] := by
  constructor <;> rfl

/-- C2 (amended): grid generation performs no validation of its inputs;
in particular, for every positive width and height and max_iter = 0 (a
non-positive bound) both mandelbrot_set and julia_set return a complete
height×width grid with every cell equal to max_iter = 0, raising no
error. -/
theorem claim_C2 (w h : ℕ) (x_min x_max y_min y_max c_re c_im : ℚ)
    (_hw : 0 < w) (_hh : 0 < h) :
    ((mandelbrot_set w h x_min x_max y_min y_max 0).length = h ∧
      ∀ r ∈ mandelbrot_set w h x_min x_max y_min y_max 0,
        r.length = w ∧ ∀ v ∈ r, v = 0) ∧
    ((julia_set w h x_min x_max y_min y_max c_re c_im 0).length = h ∧
      ∀ r ∈ julia_set w h x_min x_max y_min y_max c_re c_im 0,
        r.length = w ∧ ∀ v ∈ r, v = 0) := by
  refine ⟨⟨?_, ?_⟩, ⟨?_, ?_⟩⟩
  · simp only [mandelbrot_set, List.length_map, List.length_range]
  · intro r hr
    simp only [mandelbrot_set, List.mem_map, List.mem_range] at hr
    obtain ⟨y, -, rfl⟩ := hr
    refine ⟨by simp only [List.length_map, List.length_range], ?_⟩
    intro v hv
    simp only [List.mem_map, List.mem_range] at hv
    obtain ⟨x, -, rfl⟩ := hv
    rfl
  · simp only [julia_set, List.length_map, List.length_range]
  · intro r hr
    simp only [julia_set, List.mem_map, List.mem_range] at hr
    obtain ⟨y, -, rfl⟩ := hr
    refine ⟨by simp only [List.length_map, List.length_range], ?_⟩
    intro v hv
    simp only [List.mem_map, List.mem_range] at hv
    obtain ⟨x, -, rfl⟩ := hv
    rfl

/-- Witness for C2 at width = height = 2 on the square [-2, 2]². -/
theorem claim_C2_witness :
    0 < 2 ∧
    (((mandelbrot_set 2 2 (-2) 2 (-2) 2 0).length = 2 ∧
        ∀ r ∈ mandelbrot_set 2 2 (-2) 2 (-2) 2 0,
          r.length = 2 ∧ ∀ v ∈ r, v = 0) ∧
      ((julia_set 2 2 (-2) 2 (-2) 2 1 1 0).length = 2 ∧
        ∀ r ∈ julia_set 2 2 (-2) 2 (-2) 2 1 1 0,
          r.length = 2 ∧ ∀ v ∈ r, v = 0)) :=
  ⟨by decide, claim_C2 2 2 (-2) 2 (-2) 2 1 1 (by decide) (by decide)⟩

/-- C3: for positive width, height and max_iter and any plane bounds,
every cell of the grid returned by mandelbrot_set or julia_set is a
natural number (hence ≥ 0) bounded above by max_iter. -/
theorem claim_C3 (w h m : ℕ) (x_min x_max y_min y_max c_re c_im : ℚ)
    (_hw : 0 < w) (_hh : 0 < h) (_hm : 0 < m) :
    (∀ r ∈ mandelbrot_set w h x_min x_max y_min y_max m,
      ∀ v ∈ r, 0 ≤ v ∧ v ≤ m) ∧
    (∀ r ∈ julia_set w h x_min x_max y_min y_max c_re c_im m,
      ∀ v ∈ r, 0 ≤ v ∧ v ≤ m) := by
  constructor <;>
  · intro r hr v hv
    simp only [mandelbrot_set, julia_set, List.mem_map, List.mem_range] at hr
    obtain ⟨y, -, rfl⟩ := hr
    simp only [List.mem_map, List.mem_range] at hv
    obtain ⟨x, -, rfl⟩ := hv
    exact ⟨Nat.zero_le _, escapeLoop_le _ m _⟩

/-- Witness for C3 at a 2×2 grid over [-2, 2]² with max_iter = 3. -/
theorem claim_C3_witness :
    0 < 2 ∧ 0 < 3 ∧
    ((∀ r ∈ mandelbrot_set 2 2 (-2) 2 (-2) 2 3, ∀ v ∈ r, 0 ≤ v ∧ v ≤ 3) ∧
      (∀ r ∈ julia_set 2 2 (-2) 2 (-2) 2 0 0 3, ∀ v ∈ r, 0 ≤ v ∧ v ≤ 3)) :=
  ⟨by decide, by decide, claim_C3 2 2 3 (-2) 2 (-2) 2 0 0 (by decide) (by decide) (by decide)⟩

/-- C4: the grid generators store at grid[row][col] the kernel result
for the plane point (x_min + col·(x_max−x_min)/width,
y_min + row·(y_max−y_min)/height), for every row < height and
col < width; at row = 0 the imaginary part is y_min, so row 0 is the
bottom of the plane. -/
theorem claim_C4 (w h m : ℕ) (x_min x_max y_min y_max c_re c_im : ℚ)
    (row col : ℕ) (hrow : row < h) (hcol : col < w) :
    ((mandelbrot_set w h x_min x_max y_min y_max m).getD row []).getD col 0 =
      mandelbrot_point
        (x_min + col * ((x_max - x_min) / w), y_min + row * ((y_max - y_min) / h)) m ∧
    ((julia_set w h x_min x_max y_min y_max c_re c_im m).getD row []).getD col 0 =
      julia_point
        (x_min + col * ((x_max - x_min) / w), y_min + row * ((y_max - y_min) / h))
        (c_re, c_im) m := by
  constructor <;>
    simp only [mandelbrot_set, julia_set, List.getD_eq_getElem?_getD,
      List.getElem?_map, List.getElem?_range, hrow, hcol, if_true,
      Option.map_some, Option.map_some', Option.getD_some]

/-- Witness for C4 at a 3×2 grid over [0, 1]×[0, 1], row 1, col 2. -/
theorem claim_C4_witness :
    1 < 2 ∧ 2 < 3 ∧
    (((mandelbrot_set 3 2 0 1 0 1 5).getD 1 []).getD 2 0 =
        mandelbrot_point (0 + 2 * ((1 - 0) / 3), 0 + 1 * ((1 - 0) / 2)) 5 ∧
      ((julia_set 3 2 0 1 0 1 0 0 5).getD 1 []).getD 2 0 =
        julia_point (0 + 2 * ((1 - 0) / 3), 0 + 1 * ((1 - 0) / 2)) (0, 0) 5) :=
  ⟨by decide, by decide, claim_C4 3 2 5 0 1 0 1 0 0 1 2 (by decide) (by decide)⟩

/-- C5: for positive width, height and zoom, the bounds returned by
calculate_bounds have aspect ratio (x_max−x_min)/(y_max−y_min) equal to
width/height, satisfy x_min < x_max and y_min < y_max, have the center
as the midpoint of each axis, and doubling zoom halves both extents;
the Julia generator's calculate_bounds is the same function. -/
theorem claim_C5 (xc yc zoom : ℚ) (w h : ℕ)
    (hw : 0 < w) (hh : 0 < h) (hz : 0 < zoom) :
    ∃ x_min x_max y_min y_max x_min2 x_max2 y_min2 y_max2 : ℚ,
      MandelbrotGenerator.calculate_bounds xc yc zoom w h = (x_min, x_max, y_min, y_max) ∧
      JuliaGenerator.calculate_bounds xc yc zoom w h = (x_min, x_max, y_min, y_max) ∧
      MandelbrotGenerator.calculate_bounds xc yc (2 * zoom) w h =
        (x_min2, x_max2, y_min2, y_max2) ∧
      (x_max - x_min) / (y_max - y_min) = (w : ℚ) / (h : ℚ) ∧
      x_min < x_max ∧ y_min < y_max ∧
      (x_min + x_max) / 2 = xc ∧ (y_min + y_max) / 2 = yc ∧
      x_max2 - x_min2 = (x_max - x_min) / 2 ∧
      y_max2 - y_min2 = (y_max - y_min) / 2 := by
  have hw' : (0 : ℚ) < (w : ℚ) := by exact_mod_cast hw
  have hh' : (0 : ℚ) < (h : ℚ) := by exact_mod_cast hh
  have hx : (0 : ℚ) < 4 / zoom * ((w : ℚ) / (h : ℚ)) / 2 := by positivity
  have hy : (0 : ℚ) < 4 / zoom / 2 := by positivity
  refine ⟨xc - 4 / zoom * ((w : ℚ) / (h : ℚ)) / 2, xc + 4 / zoom * ((w : ℚ) / (h : ℚ)) / 2,
    yc - 4 / zoom / 2, yc + 4 / zoom / 2,
    xc - 4 / (2 * zoom) * ((w : ℚ) / (h : ℚ)) / 2, xc + 4 / (2 * zoom) * ((w : ℚ) / (h : ℚ)) / 2,
    yc - 4 / (2 * zoom) / 2, yc + 4 / (2 * zoom) / 2,
    rfl, rfl, rfl, ?_, by linarith, by linarith, by ring, by ring, ?_, ?_⟩
  · field_simp
    ring
  · field_simp
    ring
  · field_simp
    ring

/-- Witness for C5 at center (1, -1), zoom = 2, width = 8, height = 4. -/
theorem claim_C5_witness :
    0 < 8 ∧ 0 < 4 ∧ (0 : ℚ) < 2 ∧
    (∃ x_min x_max y_min y_max x_min2 x_max2 y_min2 y_max2 : ℚ,
      MandelbrotGenerator.calculate_bounds 1 (-1) 2 8 4 = (x_min, x_max, y_min, y_max) ∧
      JuliaGenerator.calculate_bounds 1 (-1) 2 8 4 = (x_min, x_max, y_min, y_max) ∧
      MandelbrotGenerator.calculate_bounds 1 (-1) (2 * 2) 8 4 =
        (x_min2, x_max2, y_min2, y_max2) ∧
      (x_max - x_min) / (y_max - y_min) = (8 : ℚ) / (4 : ℚ) ∧
      x_min < x_max ∧ y_min < y_max ∧
      (x_min + x_max) / 2 = 1 ∧ (y_min + y_max) / 2 = -1 ∧
      x_max2 - x_min2 = (x_max - x_min) / 2 ∧
      y_max2 - y_min2 = (y_max - y_min) / 2) :=
  ⟨by decide, by decide, by norm_num, claim_C5 1 (-1) 2 8 4 (by decide) (by decide) (by norm_num)⟩

/-- C6 counterexample: the claim asserts the Mandelbrot kernel reports
iteration 0 at plane coordinate (3, 3); the code reports 1, because the
Mandelbrot variant starts at z0 = 0, whose magnitude does not exceed 2,
so the iteration-0 test never fires. -/
lemma escapeLoop_succ (c z : ℚ × ℚ) (n : ℕ) :
    escapeLoop c (n + 1) z = if escaped z then 0 else escapeLoop c n (stepZ z c) + 1 :=
  rfl

lemma not_escaped_zero : ¬ escaped ((0 : ℚ), (0 : ℚ)) := by
  norm_num [escaped, normSq]

lemma stepZ_zero_three : stepZ ((0 : ℚ), (0 : ℚ)) (3, 3) = (3, 3) := by
  norm_num [stepZ, Prod.ext_iff]

lemma escaped_three_three : escaped ((3 : ℚ), (3 : ℚ)) := by
  norm_num [escaped, normSq]

theorem claim_C6_counterexample :
    mandelbrot_point (3, 3) 10 = 1 ∧ mandelbrot_point (3, 3) 10 ≠ 0 := by
  have h1 : mandelbrot_point (3, 3) 10 = 1 := by
    show escapeLoop (3, 3) (9 + 1) (0, 0) = 1
    rw [escapeLoop_succ, if_neg not_escaped_zero, stepZ_zero_three,
      escapeLoop_succ, if_pos escaped_three_three]
  exact ⟨h1, by rw [h1]; exact one_ne_zero⟩

/-- C6 (amended): for every positive max_iter, the Mandelbrot kernel at
c = 0+0i returns max_iter (the orbit stays at 0 and never escapes), and
at c = 3+3i it reports iteration 1 — not 0 — since z0 = 0 survives the
iteration-0 test and z1 = 3+3i escapes immediately. -/
theorem claim_C6 (m : ℕ) (hm : 0 < m) :
    mandelbrot_point (0, 0) m = m ∧ mandelbrot_point (3, 3) m = 1 := by
  constructor
  · have hstep0 : ∀ z : ℚ × ℚ, z = (0, 0) → stepZ z (0, 0) = (0, 0) := by
      intro z hz
      subst hz
      norm_num [stepZ, Prod.ext_iff]
    have hesc0 : ∀ z : ℚ × ℚ, z = (0, 0) → ¬ escaped z := by
      intro z hz
      subst hz
      exact not_escaped_zero
    exact escapeLoop_eq_of_inv (0, 0) (fun z => z = (0, 0)) hstep0 hesc0 m (0, 0) rfl
  · obtain ⟨n, rfl⟩ : ∃ n, m = n + 1 := ⟨m - 1, by omega⟩
    show escapeLoop (3, 3) (n + 1) (0, 0) = 1
    rw [escapeLoop_succ, if_neg not_escaped_zero, stepZ_zero_three]
    cases n with
    | zero => rfl
    | succ k => rw [escapeLoop_succ, if_pos escaped_three_three]

/-- Witness for C6 at max_iter = 3. -/
theorem claim_C6_witness :
    0 < 3 ∧ (mandelbrot_point (0, 0) 3 = 3 ∧ mandelbrot_point (3, 3) 3 = 1) :=
  ⟨by decide, claim_C6 3 (by decide)⟩

lemma normSq_nonneg (z : ℚ × ℚ) : 0 ≤ normSq z := by
  have h1 : 0 ≤ z.1 * z.1 := mul_self_nonneg _
  have h2 : 0 ≤ z.2 * z.2 := mul_self_nonneg _
  simpa [normSq] using add_nonneg h1 h2

/-- With c = 0 the squared magnitude squares at each step:
|z^2|^2 = (|z|^2)^2. -/
lemma normSq_stepZ_zero (z : ℚ × ℚ) :
    normSq (stepZ z (0, 0)) = normSq z ^ 2 := by
  simp only [stepZ, normSq]
  ring

/-- C7: for the Julia kernel with constant c = 0 and positive max_iter:
a start of squared magnitude above 4 escapes at index 0; squared
magnitude exactly 1 (|z0| = 1) or at most 1 (|z0| ≤ 1) never escapes and
yields max_iter; squared magnitude 9/4 (|z0| = 1.5) yields a value
strictly below max_iter once max_iter ≥ 2 (it escapes at index 1). -/
theorem claim_C7 (z : ℚ × ℚ) (m : ℕ) (hm : 0 < m) :
    (4 < normSq z → julia_point z (0, 0) m = 0) ∧
    (normSq z = 1 → julia_point z (0, 0) m = m) ∧
    (normSq z ≤ 1 → julia_point z (0, 0) m = m) ∧
    (normSq z = 9 / 4 → 2 ≤ m → julia_point z (0, 0) m < m) := by
  have hbounded : ∀ w : ℚ × ℚ, normSq w ≤ 1 → julia_point w (0, 0) m = m := by
    intro w hw
    refine escapeLoop_eq_of_inv (0, 0) (fun u => normSq u ≤ 1) ?_ ?_ m w hw
    · intro u hu
      rw [normSq_stepZ_zero]
      have h0 := normSq_nonneg u
      nlinarith
    · intro u hu
      simp only [escaped, not_lt]
      linarith
  refine ⟨?_, fun h1 => hbounded z (le_of_eq h1), hbounded z, ?_⟩
  · intro hesc
    obtain ⟨n, rfl⟩ : ∃ n, m = n + 1 := ⟨m - 1, by omega⟩
    show escapeLoop (0, 0) (n + 1) z = 0
    rw [escapeLoop_succ, if_pos (show escaped z from hesc)]
  · intro h94 hm2
    obtain ⟨k, rfl⟩ : ∃ k, m = k + 2 := ⟨m - 2, by omega⟩
    have hz1 : ¬ escaped z := by
      simp only [escaped, h94, not_lt]
      norm_num
    have hz2 : escaped (stepZ z (0, 0)) := by
      simp only [escaped, normSq_stepZ_zero, h94]
      norm_num
    show escapeLoop (0, 0) (k + 1 + 1) z < k + 2
    rw [escapeLoop_succ, if_neg hz1, escapeLoop_succ, if_pos hz2]
    omega

/-- Witness for C7 at z0 = (3, 0), max_iter = 2. -/
theorem claim_C7_witness :
    0 < 2 ∧
    ((4 < normSq (3, 0) → julia_point (3, 0) (0, 0) 2 = 0) ∧
      (normSq (3, 0) = 1 → julia_point (3, 0) (0, 0) 2 = 2) ∧
      (normSq (3, 0) ≤ 1 → julia_point (3, 0) (0, 0) 2 = 2) ∧
      (normSq (3, 0) = 9 / 4 → 2 ≤ 2 → julia_point (3, 0) (0, 0) 2 < 2)) :=
  ⟨by decide, claim_C7 (3, 0) 2 (by decide)⟩

/-- C9: for every c, z0 and max_iter ≥ 1, the Mandelbrot kernel never
returns 0 (its start z0 = 0 has |z0| ≤ 2, so the iteration-0 test cannot
fire), and either kernel returns 0 exactly when the squared magnitude of
its starting value exceeds 4 (|z0| > 2). -/
theorem claim_C9 (z c : ℚ × ℚ) (m : ℕ) (hm : 0 < m) :
    mandelbrot_point c m ≠ 0 ∧ (julia_point z c m = 0 ↔ 4 < normSq z) := by
  obtain ⟨n, rfl⟩ : ∃ n, m = n + 1 := ⟨m - 1, by omega⟩
  have hiff : ∀ w : ℚ × ℚ, escapeLoop c (n + 1) w = 0 ↔ 4 < normSq w := by
    intro w
    rw [escapeLoop_succ]
    by_cases hw : escaped w
    · rw [if_pos hw]
      exact ⟨fun _ => hw, fun _ => rfl⟩
    · rw [if_neg hw]
      constructor
      · intro hcontra
        exact absurd hcontra (Nat.succ_ne_zero _)
      · intro h4
        exact absurd h4 hw
  constructor
  · intro h0
    have h4 := (hiff (0, 0)).mp h0
    norm_num [normSq] at h4
  · exact hiff z

/-- Witness for C9 at z0 = (3, 0), c = (1, 1), max_iter = 4. -/
theorem claim_C9_witness :
    0 < 4 ∧
    (mandelbrot_point (1, 1) 4 ≠ 0 ∧
      (julia_point (3, 0) (1, 1) 4 = 0 ↔ 4 < normSq (3, 0))) :=
  ⟨by decide, claim_C9 (3, 0) (1, 1) 4 (by decide)⟩

/-- C8: the constant parser resolves "classic" through the
case-insensitive preset table to exactly -0.7+0.27015i, resolves the
literal "0.3+0.5i" to 0.3+0.5i, and on "bogus" — neither a preset nor a
valid complex literal — fails with an error whose message contains the
offending string and both accepted formats (the complex-literal example
and the preset-name example). -/
theorem claim_C8 :
    parse_julia_c (.str ("classic")) = .ok (-0.7, 0.27015) ∧
    parse_julia_c (.str ("0.3+0.5i")) = .ok (0.3, 0.5) ∧
    ∃ msg, parse_julia_c (.str ("bogus")) = .error msg ∧
      (∃ a b, msg = a ++ "bogus" ++ b) ∧
      (∃ a b, msg = a ++ "0.3+0.5j" ++ b) ∧
      (∃ a b, msg = a ++ "classic" ++ b) := by
  refine ⟨rfl, ?_, ?_⟩
  · have h : parse_julia_c (.str ("0.3+0.5i")) =
        .ok (((0 : ℕ) : ℚ) + ((3 : ℕ) : ℚ) / 10 ^ 1,
          ((0 : ℕ) : ℚ) + ((5 : ℕ) : ℚ) / 10 ^ 1) := rfl
    rw [h]
    norm_num [Prod.ext_iff]
  · refine ⟨"Formato de c inv\xe1lido: bogus. Use formatos como: " ++
      "\x270.3+0.5j\x27, \x27classic\x27, o tuple (0.3, 0.5)", rfl,
      ⟨"Formato de c inv\xe1lido: ",
        ". Use formatos como: \x270.3+0.5j\x27, \x27classic\x27, o tuple (0.3, 0.5)", ?_⟩,
      ⟨"Formato de c inv\xe1lido: bogus. Use formatos como: \x27",
        "\x27, \x27classic\x27, o tuple (0.3, 0.5)", ?_⟩,
      ⟨"Formato de c inv\xe1lido: bogus. Use formatos como: \x270.3+0.5j\x27, \x27",
        "\x27, o tuple (0.3, 0.5)", ?_⟩⟩ <;> rfl

/-- C10: the parser is idempotent — whenever parse_julia_c succeeds with
value v, feeding v back in as an already-resolved complex value returns
v unchanged (the complex branch is the identity). -/
theorem claim_C10 (inp : CInput) (v : ℚ × ℚ)
    (_h : parse_julia_c inp = .ok v) :
    parse_julia_c (.cval v) = .ok v :=
  rfl

/-- Witness for C10 on the preset "classic". -/
theorem claim_C10_witness :
    parse_julia_c (.str ("classic")) = .ok (-0.7, 0.27015) ∧
    parse_julia_c (.cval (-0.7, 0.27015)) = .ok (-0.7, 0.27015) :=
  ⟨rfl, claim_C10 (.str ("classic")) (-0.7, 0.27015) rfl⟩

end Fractal
